import Mathlib

set_option maxRecDepth 4000

/-!
Verification of the CPY_ATECC repository (CircuitPython driver for the
Microchip ATECCx08A crypto co-processor) against its natural-language
specification.

The definitions below are shallow embeddings of the Python functions in
`src/adafruit_atecc/adafruit_atecc.py` and
`src/adafruit_atecc/adafruit_atecc_asn1.py`.  Bytes are modelled as `Nat`
values (< 256 where it matters), byte strings as `List Nat`, machine
truncation as explicit `&&& 0xFFFF` / `% 2 ^ 16`, and Python exceptions as
`Except` error values.
-/

namespace ATECC

/-! ## CRC engine: `ATECC._at_crc` (adafruit_atecc.py lines 623-641) -/

/-- One iteration of the inner `for shift in range(8)` loop body of
`_at_crc`: `data_bit` is the already-extracted 0/1 bit of the current data
byte; `crc_bit` is bit 15 of the current crc; the crc is shifted left,
masked to 16 bits, and XORed with the polynomial 0x8005 (again masked)
exactly when the two bits differ. -/
def crcStepBit (crc data_bit : Nat) : Nat :=
  let crc_bit := (crc >>> 15) &&& 1
  let crc1 := (crc <<< 1) &&& 0xFFFF
  if data_bit ≠ crc_bit then (crc1 ^^^ 0x8005) &&& 0xFFFF else crc1

/-- Processing of one data byte `b` by `_at_crc`: the eight bits of `b` are
fed least-significant first, each extracted by `b & (1 << shift)`. -/
def crcByte (crc b : Nat) : Nat :=
  (List.range 8).foldl
    (fun c shift => crcStepBit c (if b &&& (1 <<< shift) ≠ 0 then 1 else 0)) crc

/-- `_at_crc(data, length)`: returns 0 when `data` is empty or `length` is 0,
otherwise folds `crcByte` over all of `data` starting from crc = 0
(the `length` argument is not used by the loop itself). -/
def at_crc_len (data : List Nat) (length : Nat) : Nat :=
  if data = [] ∨ length = 0 then 0
  else data.foldl crcByte 0

/-- `_at_crc(data)` with the default `length = len(data)`. -/
def at_crc (data : List Nat) : Nat :=
  at_crc_len data data.length

/-! ## Specification-side CRC (written from the spec's words, for claim C1)

"CRC-16 with polynomial 0x8005, initial value 0x0000, bit-serial,
processing bits least-significant-first within each byte: for each bit,
`data_bit` = bit value; `crc_bit` = bit 15 of current crc; shift crc left
by 1 (masked to 16 bits); if `data_bit != crc_bit`, XOR crc with the
polynomial (masked to 16 bits).  Empty input returns 0." -/

/-- Spec-side single-bit step. -/
def crc16_spec_bit (crc : Nat) (bit : Bool) : Nat :=
  let shifted := (crc * 2) % 2 ^ 16
  if bit ≠ crc.testBit 15 then (shifted ^^^ 0x8005) % 2 ^ 16 else shifted

/-- Spec-side CRC-16: fold over bytes, bits least-significant first. -/
def crc16_spec (data : List Nat) : Nat :=
  data.foldl
    (fun c b => (List.range 8).foldl (fun c i => crc16_spec_bit c (b.testBit i)) c) 0

/-! ### Bridging lemmas between the bit-twiddling code and the spec form -/

theorem and_ffff_eq_mod (y : Nat) : y &&& 0xFFFF = y % 2 ^ 16 := by
  have h : (0xFFFF : Nat) = 2 ^ 16 - 1 := by norm_num
  rw [h, Nat.and_pow_two_sub_one_eq_mod]

theorem crc_bit_eq_testBit (c : Nat) :
    (c >>> 15) &&& 1 = if c.testBit 15 then 1 else 0 := by
  rw [Nat.and_one_is_mod, Nat.testBit_to_div_mod, Nat.shiftRight_eq_div_pow]
  simp only [decide_eq_true_eq]
  have h15 : (2 : ℕ) ^ 15 = 32768 := by norm_num
  rw [h15]
  split <;> omega

theorem data_bit_eq_testBit (b i : Nat) :
    (if b &&& (1 <<< i) ≠ 0 then 1 else 0) = (if b.testBit i then 1 else 0 : Nat) := by
  have h1 : (1 : Nat) <<< i = 2 ^ i := by rw [Nat.shiftLeft_eq, one_mul]
  rw [h1, Nat.and_two_pow]
  cases h : b.testBit i
  · simp [h]
  · simp [h, Nat.pos_iff_ne_zero.mp (Nat.pos_pow_of_pos i (by norm_num : (0:ℕ) < 2))]

theorem crcStepBit_eq_spec (c : Nat) (bb : Bool) :
    crcStepBit c (if bb then 1 else 0) = crc16_spec_bit c bb := by
  unfold crcStepBit crc16_spec_bit
  rw [crc_bit_eq_testBit]
  have h1 : (c <<< 1) &&& 0xFFFF = (c * 2) % 2 ^ 16 := by
    rw [Nat.shiftLeft_eq, pow_one, and_ffff_eq_mod]
  rw [h1]
  cases bb <;> cases h : c.testBit 15 <;>
    simp [and_ffff_eq_mod]

theorem crcByte_eq_spec (c b : Nat) :
    crcByte c b = (List.range 8).foldl (fun c i => crc16_spec_bit c (b.testBit i)) c := by
  unfold crcByte
  congr 1
  funext c' i
  rw [data_bit_eq_testBit]
  exact crcStepBit_eq_spec c' (b.testBit i)

/-- C1: for every byte sequence, `_at_crc` computes exactly the CRC-16
described by the spec (polynomial 0x8005, initial value 0, bit-serial,
bits least-significant-first, shift left and XOR with the polynomial when
the data bit differs from pre-shift bit 15), and the empty input yields 0. -/
theorem c1_crc_engine_matches_spec (data : List Nat) :
    at_crc data = crc16_spec data ∧ at_crc [] = 0 := by
  constructor
  · unfold at_crc at_crc_len crc16_spec
    rcases data with _ | ⟨b, bs⟩
    · simp
    · have h : (b :: bs) = [] ∨ (b :: bs).length = 0 ↔ False := by simp
      rw [if_neg (by simp)]
      congr 1
      funext c b'
      exact crcByte_eq_spec c b'
  · rfl

/-! ## CRC self-check property (claim C7)

The claim asserts `crc16 (b ++ [hi, lo]) = 0` where `hi`/`lo` are the high
and low bytes of `crc16 b`.  Because the engine feeds the data bits
least-significant-first but compares them against the MOST significant crc
bit, the bytes that cancel the register are the BIT-REVERSED high byte
followed by the bit-reversed low byte. -/

/-- Reversal of the 8 bits of one byte (bit `i` of the result is bit
`7 - i` of the input). -/
def rev8 (b : Nat) : Nat :=
  ((b >>> 7) &&& 1)
  ||| (((b >>> 6) &&& 1) <<< 1)
  ||| (((b >>> 5) &&& 1) <<< 2)
  ||| (((b >>> 4) &&& 1) <<< 3)
  ||| (((b >>> 3) &&& 1) <<< 4)
  ||| (((b >>> 2) &&& 1) <<< 5)
  ||| (((b >>> 1) &&& 1) <<< 6)
  ||| ((b &&& 1) <<< 7)

theorem testBit_mod_two (y k : Nat) :
    (y % 2).testBit k = (decide (k < 1) && y.testBit k) := by
  have h2 : (2 : ℕ) = 2 ^ 1 := rfl
  rw [h2, Nat.testBit_mod_two_pow]

theorem rev8_testBit (x i : Nat) (h : i < 8) :
    (rev8 x).testBit i = x.testBit (7 - i) := by
  interval_cases i <;>
    simp [rev8, Nat.testBit_or, Nat.testBit_shiftLeft, Nat.testBit_shiftRight,
      Nat.testBit_and, testBit_mod_two]

/-- Feeding the crc register a data bit equal to its own bit 15 reduces the
step to a plain shift: from state `c * 2 ^ j % 2 ^ 16` it moves to
`c * 2 ^ (j + 1) % 2 ^ 16`. -/
theorem crcStep_shift (c j : Nat) (hj : j ≤ 15) :
    crcStepBit (c * 2 ^ j % 2 ^ 16) (if c.testBit (15 - j) then 1 else 0)
      = c * 2 ^ (j + 1) % 2 ^ 16 := by
  unfold crcStepBit
  rw [crc_bit_eq_testBit]
  have hbit : (c * 2 ^ j % 2 ^ 16).testBit 15 = c.testBit (15 - j) := by
    rw [Nat.testBit_mod_two_pow, ← Nat.shiftLeft_eq, Nat.testBit_shiftLeft]
    simp [hj]
  rw [hbit]
  rw [if_neg (by simp)]
  rw [Nat.shiftLeft_eq, pow_one, and_ffff_eq_mod, Nat.mod_mul_mod]
  ring_nf

/-- Feeding a whole byte whose bits (least-significant first) equal the
crc's bits 15 down to 8 just shifts the register left by 8. -/
theorem crcByte_matching (c B : Nat) (hc : c < 2 ^ 16)
    (hB : ∀ i, i < 8 → B.testBit i = c.testBit (15 - i)) :
    crcByte c B = c * 2 ^ 8 % 2 ^ 16 := by
  have hr : List.range 8 = [0, 1, 2, 3, 4, 5, 6, 7] := rfl
  unfold crcByte
  rw [hr]
  simp only [List.foldl]
  simp only [data_bit_eq_testBit]
  rw [hB 0 (by norm_num), hB 1 (by norm_num), hB 2 (by norm_num), hB 3 (by norm_num),
      hB 4 (by norm_num), hB 5 (by norm_num), hB 6 (by norm_num), hB 7 (by norm_num)]
  have e0 := crcStep_shift c 0 (by norm_num)
  have e1 := crcStep_shift c 1 (by norm_num)
  have e2 := crcStep_shift c 2 (by norm_num)
  have e3 := crcStep_shift c 3 (by norm_num)
  have e4 := crcStep_shift c 4 (by norm_num)
  have e5 := crcStep_shift c 5 (by norm_num)
  have e6 := crcStep_shift c 6 (by norm_num)
  have e7 := crcStep_shift c 7 (by norm_num)
  norm_num at e0 e1 e2 e3 e4 e5 e6 e7 ⊢
  rw [Nat.mod_eq_of_lt (show c < 65536 by norm_num at hc; exact hc)] at e0
  rw [e0, e1, e2, e3, e4, e5, e6, e7]

theorem crcStepBit_lt (c d : Nat) : crcStepBit c d < 2 ^ 16 := by
  dsimp only [crcStepBit]
  split <;> (rw [and_ffff_eq_mod]; exact Nat.mod_lt _ (by norm_num))

theorem crcByte_lt (c b : Nat) : crcByte c b < 2 ^ 16 := by
  have hr : List.range 8 = [0, 1, 2, 3, 4, 5, 6, 7] := rfl
  unfold crcByte
  rw [hr]
  simp only [List.foldl]
  exact crcStepBit_lt _ _

theorem at_crc_eq_foldl (data : List Nat) : at_crc data = data.foldl crcByte 0 := by
  unfold at_crc at_crc_len
  rcases data with _ | ⟨b, bs⟩
  · rfl
  · rw [if_neg (by simp)]

theorem at_crc_lt (data : List Nat) : at_crc data < 2 ^ 16 := by
  rw [at_crc_eq_foldl]
  rcases data with _ | ⟨b, bs⟩
  · norm_num
  · have : ∀ (l : List Nat) (c : Nat), c < 2 ^ 16 → l.foldl crcByte c < 2 ^ 16 := by
      intro l
      induction l with
      | nil => intro c hc; exact hc
      | cons x xs ih => intro c hc; exact ih _ (crcByte_lt c x)
    rw [List.foldl_cons]
    exact this bs _ (crcByte_lt 0 b)

/-- Core cancellation: from any 16-bit crc state, feeding the bit-reversed
high byte and then the bit-reversed low byte of the state drives the
register to 0. -/
theorem crc_cancel (c : Nat) (hc : c < 2 ^ 16) :
    crcByte (crcByte c (rev8 (c >>> 8))) (rev8 (c &&& 0xFF)) = 0 := by
  have hB1 : ∀ i, i < 8 → (rev8 (c >>> 8)).testBit i = c.testBit (15 - i) := by
    intro i hi
    rw [rev8_testBit _ i hi, Nat.testBit_shiftRight]
    congr 1
    omega
  have h1 : crcByte c (rev8 (c >>> 8)) = c * 2 ^ 8 % 2 ^ 16 :=
    crcByte_matching c _ hc hB1
  have hclt : c * 2 ^ 8 % 2 ^ 16 < 2 ^ 16 := Nat.mod_lt _ (by norm_num)
  have hB2 : ∀ i, i < 8 →
      (rev8 (c &&& 0xFF)).testBit i = (c * 2 ^ 8 % 2 ^ 16).testBit (15 - i) := by
    intro i hi
    rw [rev8_testBit _ i hi]
    rw [Nat.testBit_mod_two_pow, ← Nat.shiftLeft_eq, Nat.testBit_shiftLeft]
    have h7 : (0xFF : ℕ) = 2 ^ 8 - 1 := by norm_num
    rw [h7, Nat.and_pow_two_sub_one_eq_mod, Nat.testBit_mod_two_pow]
    have hd1 : 7 - i < 8 := by omega
    have hd2 : 15 - i < 16 := by omega
    have hd3 : 8 ≤ 15 - i := by omega
    have hd4 : 15 - i - 8 = 7 - i := by omega
    simp [hd1, hd2, hd3, hd4]
  have h2 : crcByte (c * 2 ^ 8 % 2 ^ 16) (rev8 (c &&& 0xFF))
      = c * 2 ^ 8 % 2 ^ 16 * 2 ^ 8 % 2 ^ 16 :=
    crcByte_matching _ _ hclt hB2
  rw [h1, h2, Nat.mod_mul_mod]
  have hmul : c * 2 ^ 8 * 2 ^ 8 = c * 2 ^ 16 := by ring
  rw [hmul, Nat.mul_mod_left]

/-- C7 counterexample: for `b = [0x01]` the CRC is 0x8303 (high byte 0x83,
low byte 0x03), yet recomputing the CRC over `b` with the high byte then
the low byte appended yields 3727, not 0 — refuting the claim as stated. -/
theorem c7_append_high_low_not_zero :
    at_crc [0x01] = 0x8303
    ∧ at_crc [0x01] >>> 8 = 0x83
    ∧ at_crc [0x01] &&& 0xFF = 0x03
    ∧ at_crc [0x01, 0x83, 0x03] ≠ 0 := by decide

/-- C7 (amended): for every byte buffer `b`, appending the BIT-REVERSED
high CRC byte and then the bit-reversed low CRC byte of `crc16(b)` and
recomputing the CRC over the extended buffer yields 0 under the engine's
bit ordering. -/
theorem c7_append_reversed_crc_yields_zero (b : List Nat) :
    at_crc (b ++ [rev8 (at_crc b >>> 8), rev8 (at_crc b &&& 0xFF)]) = 0 := by
  rw [at_crc_eq_foldl, List.foldl_append]
  simp only [List.foldl]
  rw [← at_crc_eq_foldl]
  exact crc_cancel (at_crc b) (at_crc_lt b)

/-! ## Command packet assembly: `ATECC._send_command` (lines 563-595) -/

/-- `_send_command(opcode, param_1, param_2, data)` assembles
`command_packet = bytearray(8 + len(data))`: index 0 holds the word address
0x03, index 1 the count `len(command_packet) - 1`, index 2 the opcode,
index 3 `param_1`, indices 4 and 5 the two little-endian bytes of
`param_2`, and `data` from index 6 on.  The CRC of `command_packet[1:-2]`
(the two trailing bytes are still zero placeholders at that point, so this
is the length byte through the end of the data) is then stored with its low
byte at position -2 and its high byte at position -1. -/
def send_command (opcode param_1 param_2 : Nat) (data : List Nat) : List Nat :=
  let body := [0x03, 8 + data.length - 1, opcode, param_1,
               param_2 &&& 0xFF, param_2 >>> 8] ++ data
  let crc := at_crc (body.drop 1)
  body ++ [crc &&& 0xFF, crc >>> 8]

/-- C4: every assembled command packet satisfies the framing invariant:
its total size is `8 + len(data)`; the length byte (index 1) equals the
total packet size minus 1 (excluding only the word-address byte); and the
last two bytes are exactly the CRC computed over the bytes from the length
byte through the end of the data, low byte second-to-last and high byte
last.  (The bounds keep every stored value below 256, the domain where the
Python bytearray item assignments are defined.) -/
theorem c4_packet_framing_invariant (opcode param_1 param_2 : Nat) (data : List Nat)
    (hdata : data.length ≤ 248) (hp2 : param_2 < 2 ^ 16) :
    (send_command opcode param_1 param_2 data).length = 8 + data.length
    ∧ (send_command opcode param_1 param_2 data).getD 1 0
        = (send_command opcode param_1 param_2 data).length - 1
    ∧ (send_command opcode param_1 param_2 data).drop
          ((send_command opcode param_1 param_2 data).length - 2)
        = [at_crc (((send_command opcode param_1 param_2 data).take
              ((send_command opcode param_1 param_2 data).length - 2)).drop 1) &&& 0xFF,
           at_crc (((send_command opcode param_1 param_2 data).take
              ((send_command opcode param_1 param_2 data).length - 2)).drop 1) >>> 8] := by
  have hlen : (send_command opcode param_1 param_2 data).length = 8 + data.length := by
    simp [send_command]
    omega
  have htake : (send_command opcode param_1 param_2 data).take (8 + data.length - 2)
      = [0x03, 8 + data.length - 1, opcode, param_1,
         param_2 &&& 0xFF, param_2 >>> 8] ++ data := by
    unfold send_command
    apply List.take_left'
    simp
    omega
  have hdrop : (send_command opcode param_1 param_2 data).drop (8 + data.length - 2)
      = [at_crc ([8 + data.length - 1, opcode, param_1,
            param_2 &&& 0xFF, param_2 >>> 8] ++ data) &&& 0xFF,
         at_crc ([8 + data.length - 1, opcode, param_1,
            param_2 &&& 0xFF, param_2 >>> 8] ++ data) >>> 8] := by
    unfold send_command
    apply List.drop_left'
    simp
    omega
  refine ⟨hlen, ?_, ?_⟩
  · rw [hlen]
    simp [send_command]
  · rw [hlen, hdrop, htake]
    simp

/-- Witness for C4: the framing invariant instantiated at the 4-byte read
command (opcode 0x02) with configuration-zone word address 0x0007 and a
one-byte data field. -/
theorem c4_packet_framing_witness :
    (send_command 0x02 0x80 0x0007 [0xAA]).length = 8 + 1
    ∧ (send_command 0x02 0x80 0x0007 [0xAA]).getD 1 0
        = (send_command 0x02 0x80 0x0007 [0xAA]).length - 1
    ∧ (send_command 0x02 0x80 0x0007 [0xAA]).drop
          ((send_command 0x02 0x80 0x0007 [0xAA]).length - 2)
        = [at_crc (((send_command 0x02 0x80 0x0007 [0xAA]).take
              ((send_command 0x02 0x80 0x0007 [0xAA]).length - 2)).drop 1) &&& 0xFF,
           at_crc (((send_command 0x02 0x80 0x0007 [0xAA]).take
              ((send_command 0x02 0x80 0x0007 [0xAA]).length - 2)).drop 1) >>> 8] :=
  c4_packet_framing_invariant 0x02 0x80 0x0007 [0xAA] (by decide) (by decide)

/-- C9 counterexample: for opcode 0x1B (random), param1 = 0, param2 = 0 and
no data, the assembled command packet does NOT have total length 7 (it has
length 8). -/
theorem c9_random_packet_not_length_seven :
    ¬ (send_command 0x1B 0x00 0x0000 []).length = 7 := by decide

/-- C9 (amended): for opcode 0x1B (random), param1 = 0, param2 = 0 and no
data, the assembled command packet has total length exactly 8 bytes (word
address, length byte 0x07, opcode, param1, two param2 bytes, two CRC
bytes), concretely `03 07 1B 00 00 00 24 CD`. -/
theorem c9_random_packet_length_eight :
    (send_command 0x1B 0x00 0x0000 []).length = 8
    ∧ send_command 0x1B 0x00 0x0000 []
        = [0x03, 0x07, 0x1B, 0x00, 0x00, 0x00, 0x24, 0xCD] := by decide

/-! ## Response retrieval: `ATECC._get_response` (lines 598-620) -/

inductive RespError where
  /-- `RuntimeError("Failed to read data from chip")` after the retry loop's
  `else` branch (all transport reads raised `OSError`). -/
  | noResponse
  /-- the error raised when the stored CRC differs from the recomputed one
  ("CRC or Communication Error"). -/
  | crcMismatch
  deriving DecidableEq, Repr

/-- The `for _ in range(retries)` / `try: readinto; break / except OSError:
pass` loop of `_get_response`: `reads k` is the outcome of the `k`-th
transport read attempt (`none` = `OSError`, `some bytes` = the bytes
`readinto` wrote).  Yields the first successful attempt within `fuel`
iterations starting at attempt `start`, or `none` when every attempt
fails. -/
def read_attempts (reads : Nat → Option (List Nat)) (start fuel : Nat) :
    Option (List Nat) :=
  match fuel with
  | 0 => none
  | n + 1 =>
    match reads start with
    | some r => some r
    | none => read_attempts reads (start + 1) n

/-- `_get_response(buf, length=len(buf), retries)`: allocates a response
buffer of `length + 3` bytes (1 header byte, `length` data bytes, 2 CRC
bytes) and retries the transport read up to `retries` times; exhaustion
raises `noResponse`.  On a successful read, the stored CRC
`response[-2] | (response[-1] << 8)` is compared with `_at_crc(response[0:-2])`;
a mismatch raises the CRC error, otherwise the payload
`response[1:length+1]` is copied to `buf` and `response[1]` returned. -/
def get_response (length retries : Nat) (reads : Nat → Option (List Nat)) :
    Except RespError (Nat × List Nat) :=
  match read_attempts reads 0 retries with
  | none => .error .noResponse
  | some response =>
    let crc := response.getD (length + 1) 0 ||| (response.getD (length + 2) 0 <<< 8)
    let crc2 := at_crc (response.take (length + 1))
    if crc ≠ crc2 then .error .crcMismatch
    else .ok (response.getD 1 0, (response.drop 1).take length)

theorem read_attempts_none (reads : Nat → Option (List Nat)) :
    ∀ (fuel start : Nat), (∀ j, j < fuel → reads (start + j) = none) →
      read_attempts reads start fuel = none := by
  intro fuel
  induction fuel with
  | zero => intro start h; rfl
  | succ n ih =>
    intro start h
    unfold read_attempts
    have h0 : reads start = none := by simpa using h 0 (Nat.succ_pos n)
    rw [h0]
    exact ih (start + 1) (fun j hj => by
      rw [show start + 1 + j = start + (j + 1) by omega]
      exact h (j + 1) (by omega))

theorem read_attempts_first_success (reads : Nat → Option (List Nat))
    (response : List Nat) :
    ∀ (fuel start k : Nat), k < fuel → (∀ j, j < k → reads (start + j) = none) →
      reads (start + k) = some response →
      read_attempts reads start fuel = some response := by
  intro fuel
  induction fuel with
  | zero => intro start k hk; exact absurd hk (Nat.not_lt_zero k)
  | succ n ih =>
    intro start k hk hfail hsucc
    unfold read_attempts
    cases k with
    | zero =>
      rw [show start + 0 = start from rfl] at hsucc
      rw [hsucc]
    | succ m =>
      have h0 : reads start = none := by simpa using hfail 0 (Nat.succ_pos m)
      rw [h0]
      exact ih (start + 1) m (by omega)
        (fun j hj => by
          rw [show start + 1 + j = start + (j + 1) by omega]
          exact hfail (j + 1) (by omega))
        (by rw [show start + 1 + m = start + (m + 1) by omega]; exact hsucc)

/-- C2: `_get_response` reads `length + 3` bytes per attempt; when the
first `retries` attempts all fail at the transport level it raises the
fatal no-response error; when some attempt `k < retries` succeeds (all
earlier ones having failed), the outcome depends only on the bytes read,
never on further retries: a mismatch between the stored trailing-two-byte
CRC and the CRC recomputed over the preceding bytes is the fatal CRC
error, and a match returns the header-adjacent byte together with the
`length`-byte payload. -/
theorem c2_get_response_retry_and_crc (length retries k : Nat)
    (reads : Nat → Option (List Nat)) (response : List Nat)
    (hresp : response.length = length + 3)
    (hfail : ∀ i, i < k → reads i = none) :
    (k = retries → get_response length retries reads = .error .noResponse)
    ∧ (k < retries → reads k = some response →
        (response.getD (response.length - 2) 0
              ||| (response.getD (response.length - 1) 0 <<< 8)
            ≠ at_crc (response.take (response.length - 2)) →
          get_response length retries reads = .error .crcMismatch)
        ∧ (response.getD (response.length - 2) 0
              ||| (response.getD (response.length - 1) 0 <<< 8)
            = at_crc (response.take (response.length - 2)) →
          get_response length retries reads
            = .ok (response.getD 1 0, (response.drop 1).take length))) := by
  have i1 : response.length - 2 = length + 1 := by omega
  have i2 : response.length - 1 = length + 2 := by omega
  constructor
  · intro hk
    subst hk
    unfold get_response
    rw [read_attempts_none reads k 0 (fun j hj => by simpa using hfail j hj)]
  · intro hk hsucc
    have hread : read_attempts reads 0 retries = some response :=
      read_attempts_first_success reads response retries 0 k hk
        (fun j hj => by simpa using hfail j hj) (by simpa using hsucc)
    constructor
    · intro hne
      rw [i1, i2] at hne
      unfold get_response
      rw [hread]
      exact if_pos hne
    · intro heq
      rw [i1, i2] at heq
      unfold get_response
      rw [hread]
      exact if_neg (by simpa using heq)

/-- Witness for C2: with payload length 1, the default 20 retries, every
attempt returning the valid frame `04 11 33 43` (whose stored CRC 0x4333
matches the recomputed CRC), `_get_response` succeeds at the first attempt
and returns byte 0x11 with payload `[0x11]`. -/
theorem c2_get_response_witness :
    get_response 1 20 (fun _ => some [0x04, 0x11, 0x33, 0x43])
      = .ok (0x11, [0x11]) :=
  ((c2_get_response_retry_and_crc 1 20 0 (fun _ => some [0x04, 0x11, 0x33, 0x43])
      [0x04, 0x11, 0x33, 0x43] (by decide)
      (fun i hi => absurd hi (Nat.not_lt_zero i))).2
    (by decide) rfl).2 (by decide)

/-! ## `ATECC.nonce` (lines 334-363) -/

inductive NonceError where
  /-- assertion "Data value must be 20 bytes long." -/
  | dataNot20
  /-- assertion "Data value must be 32 bytes long." -/
  | dataNot32
  /-- `RuntimeError("Invalid mode specified!")` -/
  | invalidMode
  /-- assertion "Incorrectly calculated nonce in pass-thru mode" -/
  | nonceMismatch
  deriving DecidableEq, Repr

/-- `nonce(data, mode, zero)`: `resp` abstracts the bytes the device's
response delivers into `calculated_nonce` through `_get_response`
(a 32-byte buffer in modes 0/1, a single byte in mode 3).  Modes 0 and 1
assert `len(data) == 20` — but only under `if zero == 0x00:` — then send
the command and return the 32-byte buffer; mode 3 asserts
`len(data) == 32`, reads one status byte and asserts it equals 0;
any other mode raises `RuntimeError("Invalid mode specified!")`. -/
def nonce (data : List Nat) (mode zero : Nat) (resp : List Nat) :
    Except NonceError (List Nat) :=
  if mode = 0x00 ∨ mode = 0x01 then
    if zero = 0x00 ∧ data.length ≠ 20 then .error .dataNot20
    else .ok (resp.take 32)
  else if mode = 0x03 then
    if data.length ≠ 32 then .error .dataNot32
    else if resp.getD 0 0 ≠ 0 then .error .nonceMismatch
    else .ok (resp.take 1)
  else .error .invalidMode

/-- C5 counterexample: with mode 0, a 3-byte input (not 20 bytes) and
param2 = 1, `nonce` succeeds instead of rejecting the input — the 20-byte
requirement is only checked when param2 (`zero`) equals 0. -/
theorem c5_mode0_short_data_accepted :
    ([0x01, 0x02, 0x03] : List Nat).length ≠ 20
    ∧ nonce [0x01, 0x02, 0x03] 0x00 0x0001 (List.replicate 32 0x00)
        = .ok (List.replicate 32 0x00) :=
  ⟨by decide, rfl⟩

/-- C5 (amended): for every call to `nonce`: with mode 0 or 1 the 20-byte
input requirement is enforced exactly when param2 (`zero`) is 0, and when
it passes a 32-byte calculated nonce is returned; with mode 3
(pass-through) the input must be exactly 32 bytes long and the single
returned status byte must equal 0, any other status being the fatal
nonce-mismatch error; any other mode value is rejected. -/
theorem c5_nonce_contract (data resp : List Nat) (mode zero : Nat) :
    ((mode = 0x00 ∨ mode = 0x01) → zero = 0x00 → data.length ≠ 20 →
        nonce data mode zero resp = .error .dataNot20)
    ∧ ((mode = 0x00 ∨ mode = 0x01) → (zero = 0x00 → data.length = 20) →
        32 ≤ resp.length →
        nonce data mode zero resp = .ok (resp.take 32)
          ∧ (resp.take 32).length = 32)
    ∧ (mode = 0x03 → data.length ≠ 32 →
        nonce data mode zero resp = .error .dataNot32)
    ∧ (mode = 0x03 → data.length = 32 → resp.getD 0 0 ≠ 0 →
        nonce data mode zero resp = .error .nonceMismatch)
    ∧ (mode = 0x03 → data.length = 32 → resp.getD 0 0 = 0 →
        nonce data mode zero resp = .ok (resp.take 1))
    ∧ (mode ≠ 0x00 → mode ≠ 0x01 → mode ≠ 0x03 →
        nonce data mode zero resp = .error .invalidMode) := by
  refine ⟨?_, ?_, ?_, ?_, ?_, ?_⟩
  · intro hm hz hd
    unfold nonce
    rw [if_pos hm, if_pos ⟨hz, hd⟩]
  · intro hm hzd hr
    unfold nonce
    rw [if_pos hm, if_neg (by tauto)]
    exact ⟨rfl, by simp [hr]⟩
  · intro hm hd
    unfold nonce
    rw [if_neg (by omega), if_pos hm, if_pos hd]
  · intro hm hd hs
    unfold nonce
    rw [if_neg (by omega), if_pos hm, if_neg (by omega), if_pos hs]
  · intro hm hd hs
    unfold nonce
    rw [if_neg (by omega), if_pos hm, if_neg (by omega), if_neg (by omega)]
  · intro h0 h1 h3
    unfold nonce
    rw [if_neg (by tauto), if_neg h3]

/-- Witness for C5 (amended): a mode-3 pass-through call with a 32-byte
input and a zero status byte succeeds and returns that single byte. -/
theorem c5_nonce_witness :
    nonce (List.replicate 32 0x07) 0x03 0x0000 [0x00] = .ok [0x00] :=
  (c5_nonce_contract (List.replicate 32 0x07) [0x00] 0x03 0x0000).2.2.2.2.1
    rfl (by decide) (by decide)

/-! ## `ATECC.random` (lines 388-407) -/

/-- `random(min, max)`: `r` abstracts the 16 random bytes `_random`
returns from the device.  The source begins with `if max: min = 0`
(zeroing the lower bound whenever `max` is nonzero), returns `min` when
`min >= max`, and otherwise sums the 16 byte values, takes the absolute
value, reduces modulo `delta = max - min` and adds `min`. -/
def random (mn mx : Int) (r : List Nat) : Int :=
  let mn := if mx ≠ 0 then 0 else mn
  if mn ≥ mx then mn
  else
    let delta := mx - mn
    let data : Int := ((r.foldl (fun acc d => acc + d) 0 : Nat) : Int)
    let data := if data < 0 then -data else data
    let data := data % delta
    data + mn

/-- C8: evaluating `random` at the failing input: with min = 5, max = 10
and all 16 drawn bytes zero, the code returns 0 — not the claimed
`min + (|sum| mod (max - min)) = 5`, and outside the claimed range
`[5, 10)` — because `if max: min = 0` discards the lower bound whenever
`max` is nonzero. -/
theorem c8_random_lower_bound_discarded :
    random 5 10 (List.replicate 16 0) = 0
    ∧ random 5 10 (List.replicate 16 0) ≠ 5 + 0 % (10 - 5)
    ∧ ¬ (5 ≤ random 5 10 (List.replicate 16 0)) := by decide

/-! ## ASN.1 helpers: `adafruit_atecc_asn1.py` -/

/-- `struct.pack("B", v)` as a one-byte string (all callers below keep
`v ≤ 255`, where packing succeeds and yields the byte `v`). -/
def pack_B (v : Nat) : List Nat := [v]

/-- The `while (r == 0x00 and r_len > 1): r += 1; r_len -= 1` loop shared
by `get_signature` and `get_signature_length`.  Because the loop
increments the byte VALUE `r` (not a position), after one iteration
`r = 1 ≠ 0` and the condition fails, so the loop body runs at most once;
this single-step unrolling is therefore exact for every input. -/
def strip_loop (r r_len : Nat) : Nat × Nat :=
  if r = 0 ∧ 1 < r_len then (r + 1, r_len - 1) else (r, r_len)

/-- `get_signature_length(signature)` (asn1 lines 158-180): reads
`r = signature[0]` and `s = signature[32]`, runs the zero-strip loop on
`(r, 32)`, adds 1 to `r_len` when `r & 0x80` is set (using the possibly
incremented `r`), does the same for `s`, and returns
`21 + r_len + s_len`. -/
def get_signature_length (signature : List Nat) : Nat :=
  let r := signature.getD 0 0
  let s := signature.getD 32 0
  let rp := strip_loop r 32
  let r_len := if rp.1 &&& 0x80 ≠ 0 then rp.2 + 1 else rp.2
  let sp := strip_loop s 32
  let s_len := if sp.1 &&& 0x80 ≠ 0 then sp.2 + 1 else sp.2
  21 + r_len + s_len

/-- `get_signature(signature, data)` (asn1 lines 41-89): appends the ECDSA
with SHA256 signature-algorithm prefix, the BIT STRING and SEQUENCE
headers sized from the (stripped, sign-padded) `r_len`/`s_len`, then each
INTEGER: tag and length, an extra 0x00 pad byte when the high bit is set
(decrementing the length around the value emission), the value bytes
`signature[0:r_len]` for `r` and `signature[s_len:]` for `s`, and returns
`21 + r_len + s_len`.  The Python mutates `data` in place; here the
extended buffer is returned alongside the return value. -/
def get_signature (signature data : List Nat) : List Nat × Nat :=
  let data := data ++ [0x30, 0x0a, 0x06, 0x08]
  let data := data ++ [0x2a, 0x86, 0x48, 0xce, 0x3d, 0x04, 0x03, 0x02]
  let r := signature.getD 0 0
  let s := signature.getD 32 0
  let rp := strip_loop r 32
  let sp := strip_loop s 32
  let r_len := if rp.1 &&& 0x80 ≠ 0 then rp.2 + 1 else rp.2
  let s_len := if sp.1 &&& 0x80 ≠ 0 then sp.2 + 1 else sp.2
  let data := data ++ [0x03] ++ pack_B (r_len + s_len + 7) ++ [0x00]
  let data := data ++ [0x30] ++ pack_B (r_len + s_len + 4)
  let data := data ++ [0x02] ++ pack_B r_len
  let dr := if rp.1 &&& 0x80 ≠ 0 then (data ++ [0x00], r_len - 1) else (data, r_len)
  let data := dr.1 ++ signature.take dr.2
  let r_len := if rp.1 &&& 0x80 ≠ 0 then dr.2 + 1 else dr.2
  let data := data ++ [0x02] ++ pack_B s_len
  let ds := if sp.1 &&& 0x80 ≠ 0 then (data ++ [0x00], s_len - 1) else (data, s_len)
  let data := ds.1 ++ signature.drop ds.2
  let s_len := if sp.1 &&& 0x80 ≠ 0 then ds.2 + 1 else ds.2
  (data, 21 + r_len + s_len)

/-- The r-half of a 64-byte raw signature that is all zeros except a final
0x05, with an s-half starting 0x01 (no stripping, no sign padding). -/
def c3_sig : List Nat :=
  List.replicate 31 0x00 ++ [0x05] ++ [0x01] ++ List.replicate 31 0x00

/-- C3: evaluating the code at the failing input `c3_sig`: the spec (DER)
requires the all-zero-but-final-0x05 r-half to be stripped to length 1
with value byte 0x05 (total `21 + 1 + 32 = 54`), but the code computes
`r_len = 31` — its strip loop increments the byte value `r` instead of
walking the buffer, so it strips at most one zero — and it then emits
`signature[0:31]` (31 zero bytes, not `[0x05]`) as the INTEGER value. -/
theorem c3_strip_loop_increments_value :
    get_signature_length c3_sig = 21 + 31 + 32
    ∧ (get_signature c3_sig []).2 = 21 + 31 + 32
    ∧ get_signature_length c3_sig ≠ 21 + 1 + 32
    ∧ ((get_signature c3_sig []).1.drop 19).take 31 = List.replicate 31 0x00 := by
  refine ⟨rfl, rfl, by decide, by decide⟩

/-! ## Subject / issuer length arithmetic (asn1 lines 93-127, 182-207) -/

/-- `get_sequence_header_length(seq_header_len)`. -/
def get_sequence_header_length (seq_header_len : Nat) : Nat :=
  if seq_header_len > 255 then 4
  else if seq_header_len > 127 then 3
  else 2

/-- `issuer_or_subject_length(country, state_prov, city, org, org_unit,
common)`: sums `11 + len(value)` for each non-empty attribute; when
`common` is empty it raises `TypeError("Provided length must be > 0")`. -/
def issuer_or_subject_length
    (country state_prov city org org_unit common : List Nat) :
    Except String Nat :=
  let tot_len := 0
  let tot_len := if country ≠ [] then tot_len + 11 + country.length else tot_len
  let tot_len := if state_prov ≠ [] then tot_len + 11 + state_prov.length else tot_len
  let tot_len := if city ≠ [] then tot_len + 11 + city.length else tot_len
  let tot_len := if org ≠ [] then tot_len + 11 + org.length else tot_len
  let tot_len := if org_unit ≠ [] then tot_len + 11 + org_unit.length else tot_len
  if common ≠ [] then .ok (tot_len + 11 + common.length)
  else .error "Provided length must be > 0"

/-- `get_name(name, obj_type, data)` (asn1 lines 110-127): appends the
ASN.1 SET header, SEQUENCE header, the 2.5.4.`obj_type` OBJECT IDENTIFIER
and a PrintableString holding `name`; returns `len(name) + 11`. -/
def get_name (name : List Nat) (obj_type : Nat) (data : List Nat) :
    List Nat × Nat :=
  let data := data ++ [0x31] ++ pack_B (name.length + 9)
  let data := data ++ [0x30] ++ pack_B (name.length + 7)
  let data := data ++ [0x06, 0x03, 0x55, 0x04] ++ pack_B obj_type
  let data := data ++ [0x13] ++ pack_B name.length
  let data := data ++ name
  (data, name.length + 11)

/-- `get_issuer_or_subject(data, country, state_prov, locality, org,
org_unit, common)` (asn1 lines 93-107): emits each non-empty attribute via
`get_name` with its X.520 object-identifier type. -/
def get_issuer_or_subject
    (data country state_prov locality org org_unit common : List Nat) :
    List Nat :=
  let data := if country ≠ [] then (get_name country 0x06 data).1 else data
  let data := if state_prov ≠ [] then (get_name state_prov 0x08 data).1 else data
  let data := if locality ≠ [] then (get_name locality 0x07 data).1 else data
  let data := if org ≠ [] then (get_name org 0x0a data).1 else data
  let data := if org_unit ≠ [] then (get_name org_unit 0x0b data).1 else data
  if common ≠ [] then (get_name common 0x03 data).1 else data

/-- Spec-side `11 + len(value)` contribution of one optional attribute. -/
def attr_len (v : List Nat) : Nat := if v ≠ [] then 11 + v.length else 0

/-- C6: for every subject with a present common name, the content length
returned by `issuer_or_subject_length` is the sum of `11 + len(value)`
over the present attributes; the sequence-header length is 2 bytes for
content length at most 127, 3 for at most 255 and 4 otherwise; and in
particular a subject with only a 10-character common name has length
`11 + 10 = 21` with header length 2. -/
theorem c6_subject_length_arithmetic
    (country state_prov city org org_unit common : List Nat) (n : Nat)
    (hcommon : common ≠ []) :
    issuer_or_subject_length country state_prov city org org_unit common
      = .ok (attr_len country + attr_len state_prov + attr_len city
             + attr_len org + attr_len org_unit + attr_len common)
    ∧ (n ≤ 127 → get_sequence_header_length n = 2)
    ∧ (127 < n → n ≤ 255 → get_sequence_header_length n = 3)
    ∧ (255 < n → get_sequence_header_length n = 4)
    ∧ issuer_or_subject_length [] [] [] [] [] (List.replicate 10 0x41) = .ok 21
    ∧ get_sequence_header_length 21 = 2 := by
  refine ⟨?_, ?_, ?_, ?_, rfl, rfl⟩
  · unfold issuer_or_subject_length attr_len
    rw [if_pos hcommon]
    split_ifs <;> simp <;> omega
  · intro h
    unfold get_sequence_header_length
    rw [if_neg (by omega), if_neg (by omega)]
  · intro h1 h2
    unfold get_sequence_header_length
    rw [if_neg (by omega), if_pos (by omega)]
  · intro h
    unfold get_sequence_header_length
    rw [if_pos (by omega)]

/-- Witness for C6: the particular subject with only the 10-character
common name "ABCDEF0123" (here 10 arbitrary printable bytes). -/
theorem c6_subject_length_witness :
    issuer_or_subject_length [] [] [] [] [] (List.replicate 10 0x41) = .ok 21
    ∧ get_sequence_header_length 21 = 2 ∧ 21 ≤ 127 :=
  ⟨(c6_subject_length_arithmetic [] [] [] [] [] (List.replicate 10 0x41) 21
      (by decide)).2.2.2.2.1,
   (c6_subject_length_arithmetic [] [] [] [] [] (List.replicate 10 0x41) 21
      (by decide)).2.1 (by decide),
   by decide⟩

/-- C10: for every subject whose common-name field is non-empty, the
number of bytes `get_issuer_or_subject` appends to the output buffer
equals the value computed by `issuer_or_subject_length` for the same
attribute values; and each present attribute is emitted by `get_name` as
exactly `len(name) + 11` bytes (SET header, SEQUENCE header, 5-byte
object identifier, string header, string bytes), matching the
`11 + len(value)` term counted per attribute.  (The length bounds keep the
`struct.pack("B", ...)` calls inside `get_name` in range.) -/
theorem c10_emitted_length_matches_computed
    (data country state_prov locality org org_unit common : List Nat) (n : Nat)
    (hcommon : common ≠ [])
    (hsz : country.length ≤ 246 ∧ state_prov.length ≤ 246 ∧ locality.length ≤ 246
           ∧ org.length ≤ 246 ∧ org_unit.length ≤ 246 ∧ common.length ≤ 246)
    (hlen : issuer_or_subject_length country state_prov locality org org_unit common
              = .ok n) :
    (∀ (name buf : List Nat) (obj_type : Nat),
        (get_name name obj_type buf).1.length = buf.length + (name.length + 11)
        ∧ (get_name name obj_type buf).2 = name.length + 11)
    ∧ (get_issuer_or_subject data country state_prov locality org org_unit
          common).length
        = data.length + n := by
  have hg : ∀ (name buf : List Nat) (t : Nat),
      (get_name name t buf).1.length = buf.length + (name.length + 11) := by
    intro name buf t
    simp [get_name, pack_B]
    try omega
  refine ⟨fun name buf obj_type => ⟨hg name buf obj_type, rfl⟩, ?_⟩
  unfold issuer_or_subject_length at hlen
  rw [if_pos hcommon] at hlen
  unfold get_issuer_or_subject
  rw [if_pos hcommon]
  split_ifs at hlen ⊢ <;> simp_all [hg] <;> try omega

/-- Witness for C10: a subject with country "US" (2 bytes) and a
10-character common name appends `13 + 21 = 34` bytes to an empty
buffer, the value `issuer_or_subject_length` computes. -/
theorem c10_emitted_length_witness :
    (get_issuer_or_subject [] [0x55, 0x53] [] [] [] []
        (List.replicate 10 0x41)).length = 34 := by
  have h := (c10_emitted_length_matches_computed [] [0x55, 0x53] [] [] [] []
      (List.replicate 10 0x41) 34 (by decide) (by decide) rfl).2
  simpa using h

end ATECC
